import Mathlib

/-!
Verification of the content synchronization and caching layer of the
east-idaho-news-app repository: a shallow embedding in Lean 4 of the
RealtimeService (src/unnamed/part_002), the ArchiveService
(src/src/services/archiveService.ts), the WordPressService category
resolution (src/src/services/wordpressService.ts) and the StoryImage URL
resolution helpers (src/src/components/StoryImage.tsx), together with
theorems that settle the specification's claims about them.

Modelling conventions:
* JavaScript strings are Lean `String`s; `toLowerCase` is modelled as a
  character-wise ASCII lowering (the keywords involved are ASCII).
* `Date` values (publish timestamps and the clock) are modelled as epoch
  milliseconds of type `Int`; ISO-string parsing is abstracted away.
* JavaScript `Set`/`Map` (insertion ordered) are modelled as lists in
  insertion order with no duplicate keys.
* Falsiness of a JavaScript string is the test against `""`.
* Fallible code paths that throw are modelled with `Except`.
-/

namespace NewsApp

/-- Character-wise ASCII lowercase of a string, modelling
`String.prototype.toLowerCase` for the ASCII fragment used by the code. -/
def lowerStr (s : String) : String :=
  ⟨s.data.map Char.toLower⟩

/-- `startsWithL needle hay` holds when `needle` is an initial segment of
`hay` (both as character lists). -/
def startsWithL : List Char → List Char → Bool
  | [], _ => true
  | _ :: _, [] => false
  | a :: as, b :: bs => a == b && startsWithL as bs

/-- `containsL hay needle`: `needle` occurs contiguously inside `hay`,
modelling `String.prototype.includes` on character lists. -/
def containsL (hay needle : List Char) : Bool :=
  match hay with
  | [] => needle.isEmpty
  | _ :: t => startsWithL needle hay || containsL t needle

/-- `strIncludes hay needle` models `hay.includes(needle)`. -/
def strIncludes (hay needle : String) : Bool :=
  containsL hay.data needle.data

/-- The fields of a WordPress post that the synchronization layer reads
(interface `WordPressPost`, src/src/services/wordpressService.ts):
`title`/`content` stand for the `.rendered` rich-text strings and `date`
for the publish timestamp in epoch milliseconds. -/
structure WordPressPost where
  id : Nat
  date : Int
  title : String
  content : String
  deriving DecidableEq, Repr

/-- The three classifications of `RealtimeUpdate.type`
(src/unnamed/part_002). -/
inductive UpdateType where
  | new_article
  | updated_article
  | breaking_news
  deriving DecidableEq, Repr

/-- The breaking-news indicator check of
`RealtimeService.determineUpdateType` (src/unnamed/part_002, lines
86-91): the lowercased title or content contains "breaking" or
"urgent". -/
def hasUrgencyKeyword (article : WordPressPost) : Bool :=
  let title := lowerStr article.title
  let content := lowerStr article.content
  strIncludes title "breaking" || strIncludes title "urgent" ||
    strIncludes content "breaking" || strIncludes content "urgent"

/-- `RealtimeService.determineUpdateType` (src/unnamed/part_002, lines
85-104).  `now` is `Date.now()` in epoch milliseconds. -/
def determineUpdateType (now : Int) (article : WordPressPost) : UpdateType :=
  if hasUrgencyKeyword article then
    .breaking_news
  else
    let oneHourAgo := now - 60 * 60 * 1000
    if article.date > oneHourAgo then
      .new_article
    else
      .updated_article

/-- `RealtimeService.detectNewArticles` (src/unnamed/part_002, lines
66-83).  The seen set `lastArticleIds` is a JavaScript `Set<number>`,
modelled as its insertion-order list of identifiers.  Returns the
never-seen articles (in input order) and the updated seen set:
each unseen identifier is appended, then, if the set exceeds 100
entries, only the last 50 are kept (`Array.from(...).slice(-50)`). -/
def detectNewArticles (articles : List WordPressPost) (seen : List Nat) :
    List WordPressPost × List Nat :=
  let step := fun (acc : List WordPressPost × List Nat) (article : WordPressPost) =>
    if acc.2.contains article.id then acc
    else (acc.1 ++ [article], acc.2 ++ [article.id])
  let r := articles.foldl step ([], seen)
  let pruned := if r.2.length > 100 then r.2.drop (r.2.length - 50) else r.2
  (r.1, pruned)

/-- The polling state of `RealtimeService`: the `isPolling` flag together
with the number of `setTimeout` callbacks currently pending (the source
stores no timer handle, so pending timers are never cleared). -/
structure RTState where
  isPolling : Bool
  pending : Nat
  deriving DecidableEq, Repr

/-- One run of `RealtimeService.pollForUpdates` (src/unnamed/part_002,
lines 35-64), modelled atomically on the single-threaded execution
context: if `isPolling` is false the body returns at once and schedules
nothing; otherwise the poll runs (success or swallowed error) and
unconditionally schedules the next poll with `setTimeout`, adding one
pending timer. -/
def pollForUpdates (s : RTState) : RTState :=
  if s.isPolling then { s with pending := s.pending + 1 } else s

/-- The externally triggerable events of the poller lifecycle:
`startPolling`, `stopPolling`, and the firing of one pending
`setTimeout` callback. -/
inductive RTEvent where
  | start
  | stop
  | timerFire
  deriving DecidableEq, Repr

/-- The poller's transition function:
* `startPolling` (lines 16-23): no-op when already polling, else sets the
  flag and synchronously runs `pollForUpdates`;
* `stopPolling` (lines 25-28): clears the flag only — the source keeps no
  timer handle and calls no `clearTimeout`, so `pending` is untouched;
* a timer firing consumes one pending callback and runs
  `pollForUpdates` (which re-schedules iff still polling). -/
def rtStep (s : RTState) : RTEvent → RTState
  | .start => if s.isPolling then s else pollForUpdates { s with isPolling := true }
  | .stop => { s with isPolling := false }
  | .timerFire =>
      if s.pending = 0 then s
      else pollForUpdates { s with pending := s.pending - 1 }

/-- A sequence of lifecycle events applied in order. -/
def rtRun (s : RTState) (evs : List RTEvent) : RTState :=
  evs.foldl rtStep s

/-- The initial state of the service: not polling, nothing scheduled. -/
def rtInit : RTState := ⟨false, 0⟩

/-- `indexOfL c l` models `Array.prototype.indexOf`: the first index of
`c` in `l`, or `none` (JavaScript `-1`). -/
def indexOfL (c : Nat) : List Nat → Option Nat
  | [] => none
  | x :: xs =>
      if x = c then some 0
      else (indexOfL c xs).map (· + 1)

/-- `removeAt l i` models `l.splice(i, 1)`: the list with the element at
index `i` removed. -/
def removeAt : List Nat → Nat → List Nat
  | [], _ => []
  | _ :: xs, 0 => xs
  | x :: xs, i + 1 => x :: removeAt xs i

/-- `RealtimeService.subscribe` (src/unnamed/part_002, lines 106-116):
appends the callback to the subscriber array.  Callbacks are identified
by reference; we model references as natural numbers. -/
def subscribeFn (callback : Nat) (subs : List Nat) : List Nat :=
  subs ++ [callback]

/-- The unsubscribe closure returned by `subscribe` (lines 110-115):
`indexOf(callback)` followed by `splice(index, 1)` when the index is
`> -1` — i.e. it removes the first registration of that callback, if
any. -/
def unsubscribeFn (callback : Nat) (subs : List Nat) : List Nat :=
  match indexOfL callback subs with
  | some i => removeAt subs i
  | none => subs

/-- The filter tuple of `ArchiveService.getStories`
(interface `ArchiveOptions`, src/src/services/archiveService.ts), after
the destructuring defaults of lines 42-49 have been applied: the five
string fields default to `''` and `perPage` to `10`. -/
structure ArchiveOptions where
  category : String := ""
  search : String := ""
  dateFrom : String := ""
  dateTo : String := ""
  author : String := ""
  perPage : Nat := 10
  deriving DecidableEq, Repr

/-- The cache key of `ArchiveService.getStories` (line 51):
`` `${category}-${search}-${dateFrom}-${dateTo}-${author}-${perPage}` ``. -/
def cacheKey (o : ArchiveOptions) : String :=
  o.category ++ "-" ++ o.search ++ "-" ++ o.dateFrom ++ "-" ++ o.dateTo ++
    "-" ++ o.author ++ "-" ++ toString o.perPage

/-- The mutable state of `ArchiveService`: the `cachedStories` map (an
insertion-ordered `Map<string, WordPressPost[]>`, modelled as an
association list) and the running `totalStories` counter shared by all
cache entries. -/
structure ArchiveState where
  cachedStories : List (String × List WordPressPost)
  totalStories : Nat
  deriving DecidableEq, Repr

/-- `Map.prototype.get`/`has` on the modelled cache: the value stored
under the first (and only) occurrence of the key. -/
def lookupCache (m : List (String × List WordPressPost)) (k : String) :
    Option (List WordPressPost) :=
  match m.find? (fun p => p.1 == k) with
  | some p => some p.2
  | none => none

/-- `Map.prototype.set`: replaces the value under an existing key,
otherwise appends a new entry. -/
def insertCache (m : List (String × List WordPressPost)) (k : String)
    (v : List WordPressPost) : List (String × List WordPressPost) :=
  match m with
  | [] => [(k, v)]
  | (k', v') :: rest =>
      if k' = k then (k, v) :: rest else (k', v') :: insertCache rest k v

/-- The outcome of the network round trip inside
`ArchiveService.getStories` (lines 88-98): `success stories hdr` is an OK
response whose body decoded to `stories` with `X-WP-Total` header `hdr`
(absent headers give `none`); `failure` covers every throwing path —
a rejected `fetch`, a non-OK status (line 93 throws) or a body that does
not decode — all of which are caught by the `catch` of line 109 before
`totalStories` is assigned or the cache written. -/
inductive FetchOutcome where
  | success (stories : List WordPressPost) (totalHeader : Option Nat)
  | failure
  deriving DecidableEq, Repr

/-- The record returned by `ArchiveService.getStories`. -/
structure StoriesResult where
  stories : List WordPressPost
  total : Nat
  hasMore : Bool
  deriving DecidableEq, Repr

/-- `ArchiveService.getStories` (src/src/services/archiveService.ts,
lines 37-119) as a state transformer.  `fetch` is the outcome the
network would produce if invoked.  The third component of the result
records whether the network adapter was actually invoked (`false` on a
cache hit, which returns at lines 54-61 before any request is built).
On a hit the code returns the cached stories together with the *current*
`this.totalStories` and `hasMore` recomputed from it (lines 56-60); on a
successful miss it assigns `totalStories` from the header (falling back
to `stories.length`), stores the stories under the key and returns them
(lines 96-107); on failure it returns the empty result of lines 111-115
leaving the state untouched. -/
def getStories (fetch : FetchOutcome) (o : ArchiveOptions) (s : ArchiveState) :
    StoriesResult × ArchiveState × Bool :=
  let key := cacheKey o
  match lookupCache s.cachedStories key with
  | some cached =>
      (⟨cached, s.totalStories, decide (cached.length < s.totalStories)⟩, s, false)
  | none =>
      match fetch with
      | .success stories hdr =>
          let total := match hdr with | some n => n | none => stories.length
          (⟨stories, total, decide (stories.length < total)⟩,
            ⟨insertCache s.cachedStories key stories, total⟩, true)
      | .failure => (⟨[], 0, false⟩, s, true)

/-- `ArchiveService.clearCache` (lines 164-167). -/
def clearCache (_ : ArchiveState) : ArchiveState := ⟨[], 0⟩

/-- JavaScript `parseInt(s)` (radix unspecified), as used at line 92 of
src/src/services/wordpressService.ts: skip leading whitespace, read an
optional sign, optionally a `0x`/`0X` prefix switching to base 16, then
the longest run of digits of the base; `none` models `NaN` (no digit). -/
def digitsVal (base : Nat) (cs : List Char) : Option Nat :=
  let rec go : List Char → Option Nat → Option Nat
    | [], acc => acc
    | c :: rest, acc =>
        let d :=
          if c.isDigit then some (c.toNat - '0'.toNat)
          else if base = 16 && 'a' ≤ c.toLower && c.toLower ≤ 'f' then
            some (c.toLower.toNat - 'a'.toNat + 10)
          else none
        match d with
        | some dv =>
            if dv < base then go rest (some ((acc.getD 0) * base + dv)) else acc
        | none => acc
  go cs none

/-- See `digitsVal`; this assembles full `parseInt` semantics. -/
def parseIntJS (s : String) : Option Int :=
  let cs := s.data.dropWhile (fun c => c = ' ' || c = '\t' || c = '\n' || c = '\r')
  let (neg, cs) :=
    match cs with
    | '-' :: rest => (true, rest)
    | '+' :: rest => (false, rest)
    | _ => (false, cs)
  let (base, cs) :=
    match cs with
    | '0' :: 'x' :: rest => (16, rest)
    | '0' :: 'X' :: rest => (16, rest)
    | _ => (10, cs)
  match digitsVal base cs with
  | some n => some (if neg then -(n : Int) else (n : Int))
  | none => none

/-- The hardcoded "all featured" category ids of
`WordPressService.getPosts` (src/src/services/wordpressService.ts,
lines 47-61). -/
def featuredCategoryIds : List Int :=
  [33629, 33654, 33557, 34697, 25233, 33635, 31250, 35316, 27012, 33641,
    33627, 33660, 32014]

/-- The hardcoded "all sports" category ids (lines 67-86). -/
def sportsCategoryIds : List Int :=
  [34638, 34690, 14222, 34596, 34598, 34594, 34601, 34609, 34615, 34667,
    34666, 34634, 34617, 34607, 34608, 34600, 34602, 34603]

/-- The `categories` query-parameter computation of
`WordPressService.getPosts` (lines 41-106).  `resolveSlug` is the
outcome of the secondary lookup `getCategoryId` (lines 136-147), which
returns `none` on a non-OK response, an empty category list, or a
network error.  The result is the list of category ids constraining the
request, or `none` when the request proceeds with no category
constraint (empty slug, or a slug whose resolution failed). -/
def categoriesConstraint (resolveSlug : String → Option Int)
    (categorySlug : String) : Option (List Int) :=
  if categorySlug = "" then none
  else if categorySlug = "featured-all" then some featuredCategoryIds
  else if categorySlug = "sports-all" then some sportsCategoryIds
  else
    match parseIntJS categorySlug with
    | some n => some [n]
    | none =>
        match resolveSlug categorySlug with
        | some fetchedId => some [fetchedId]
        | none => none

/-- One sized image variant (`{ source_url, width, height }` entries of
`media_details.sizes`, src/src/services/wordpressService.ts lines
10-13); `height` is never read by the resolution code and is omitted. -/
structure SizeVariant where
  source_url : String
  width : Int
  deriving DecidableEq, Repr

/-- The `sizes` object of `media_details`: a JavaScript object whose own
properties are iterated in insertion order by `Object.values`, modelled
as an association list (tier name, variant) without duplicate names. -/
abbrev SizesObj := List (String × SizeVariant)

/-- The image metadata read by StoryImage: the original `source_url` and
the optional `media_details.sizes` object (`none` when the optional
chain `image.media_details?.sizes` is undefined). -/
structure WPImage where
  source_url : String
  media_details : Option SizesObj
  deriving DecidableEq, Repr

/-- `sizes?.<name>?.source_url` as used throughout StoryImage: the URL of
the named tier, `none` when the tier is missing or its URL is the empty
string (falsy). -/
def tierUrl (sizes : SizesObj) (name : String) : Option String :=
  match sizes.find? (fun p => p.1 == name) with
  | some p => if p.2.source_url = "" then none else some p.2.source_url
  | none => none

/-- `if (sizes?.<name>?.source_url) urlOptions.push(...)`: append the
tier's URL to the accumulated list when it is present and truthy. -/
def pushTier (sizes : Option SizesObj) (name : String) (acc : List String) :
    List String :=
  match sizes with
  | some s =>
      match tierUrl s name with
      | some u => acc ++ [u]
      | none => acc
  | none => acc

/-- The web-platform preference prelude of `getImageUrl`
(src/src/components/StoryImage.tsx, lines 54-59): push thumbnail, then
medium, then woocommerce_thumbnail. -/
def webTiers (sizes : Option SizesObj) : List String :=
  ["thumbnail", "medium", "woocommerce_thumbnail"].foldl
    (fun acc name => pushTier sizes name acc) []

/-- The tier names pushed, in source order, by the fallback sections of
`getImageUrl` (lines 77-83) and `getAllUrls` (lines 104-110). -/
def fallbackTierNames : List String :=
  ["thumbnail", "medium", "woocommerce_thumbnail", "medium_large", "large", "full"]

/-- The fixed fallback tier pushes shared by `getImageUrl` (lines 77-83)
and `getAllUrls` (lines 104-110): thumbnail, medium,
woocommerce_thumbnail, medium_large, large, full, appended to `acc`. -/
def fallbackTiers (sizes : Option SizesObj) (acc : List String) : List String :=
  fallbackTierNames.foldl (fun acc name => pushTier sizes name acc) acc

/-- `Math.abs(v.width - target)` (lines 67-68): the distance of a
variant's width from the target width. -/
def distTo (target : Int) (v : SizeVariant) : Nat :=
  (v.width - target).natAbs

/-- The reducer of line 65-70: keep `best` unless `current` is strictly
closer to the target width (so ties keep the earlier element). -/
def closerTo (target : Int) (best current : SizeVariant) : SizeVariant :=
  if distTo target current < distTo target best then current
  else best

/-- `availableSizes.reduce(...)` of lines 65-70 on a non-empty array:
fold the reducer from the first element. -/
def reduceBest (target : Int) (h : SizeVariant) (t : List SizeVariant) :
    SizeVariant :=
  t.foldl (closerTo target) h

/-- `Object.values(sizes).filter(size => size.source_url)` (line 64). -/
def availableSizes (s : SizesObj) : List SizeVariant :=
  (s.map (fun p => p.2)).filter (fun v => v.source_url != "")

/-- The `urlOptions` list built by `getImageUrl`
(src/src/components/StoryImage.tsx, lines 44-86): the web prelude when
`Platform.OS === 'web'`; then, when `targetWidth` and `sizes` are truthy
(`targetWidth = 0` is falsy), the reduce-selected best size, admitted
only when `bestSize.width <= targetWidth * 1.5` (written here as
`2 * width ≤ 3 * target`, exact for integer widths); then the fixed
fallback tiers; then the original URL, pushed unconditionally (line 86).
`Array.prototype.reduce` throws a `TypeError` on an empty array with no
initial value, modelled by `.error ()`.  (The `bestSize &&` guard of
line 72 is vacuous: a reduce over a non-empty array of objects is always
truthy.) -/
def getImageUrlOptions (isWeb : Bool) (targetWidth : Option Int)
    (image : WPImage) : Except Unit (List String) :=
  let sizes := image.media_details
  let l1 := if isWeb then webTiers sizes else []
  match targetWidth, sizes with
  | some t, some s =>
      if t ≠ 0 then
        match availableSizes s with
        | [] => .error ()
        | h :: tl =>
            let bestSize := reduceBest t h tl
            let l2 :=
              if 2 * bestSize.width ≤ 3 * t then l1 ++ [bestSize.source_url]
              else l1
            .ok (fallbackTiers sizes l2 ++ [image.source_url])
      else .ok (fallbackTiers sizes l1 ++ [image.source_url])
  | _, _ => .ok (fallbackTiers sizes l1 ++ [image.source_url])

/-- `[...new Set(l)]`: deduplication in first-seen order, via the set of
strings already emitted. -/
def dedupAux : List String → List String → List String
  | [], _ => []
  | x :: xs, emitted =>
      if emitted.contains x then dedupAux xs emitted
      else x :: dedupAux xs (x :: emitted)

/-- See `dedupAux`: `[...new Set(l)]` with no prior emissions. -/
def dedupFirst (l : List String) : List String :=
  dedupAux l []

/-- `getAllUrls` (src/src/components/StoryImage.tsx, lines 98-116): the
candidate list the component walks on load failure — the six fixed
tiers in order, then the original URL when truthy (line 113), then
deduplication in first-seen order (line 115). -/
def getAllUrls (image : WPImage) : List String :=
  let urls := fallbackTiers image.media_details []
  let urls :=
    if image.source_url ≠ "" then urls ++ [image.source_url] else urls
  dedupFirst urls

/-! ### Auxiliary lemmas -/

theorem startsWithL_map (f : Char → Char) :
    ∀ (n h : List Char), startsWithL n h = true →
      startsWithL (n.map f) (h.map f) = true
  | [], _, _ => rfl
  | _ :: _, [], hp => by simp [startsWithL] at hp
  | a :: as, b :: bs, hp => by
      simp only [startsWithL, Bool.and_eq_true, beq_iff_eq] at hp
      simp only [List.map_cons, startsWithL, Bool.and_eq_true, beq_iff_eq]
      exact ⟨by rw [hp.1], startsWithL_map f as bs hp.2⟩

theorem containsL_map (f : Char → Char) :
    ∀ (hay needle : List Char), containsL hay needle = true →
      containsL (hay.map f) (needle.map f) = true
  | [], needle, hc => by
      simp only [containsL, List.isEmpty_iff] at hc
      subst hc
      rfl
  | c :: t, needle, hc => by
      simp only [containsL, Bool.or_eq_true] at hc
      rcases hc with hc | hc
      · have := startsWithL_map f needle (c :: t) hc
        simp only [List.map_cons] at this ⊢
        simp only [containsL, Bool.or_eq_true]
        exact Or.inl this
      · have := containsL_map f t needle hc
        simp only [List.map_cons, containsL, Bool.or_eq_true]
        exact Or.inr this

theorem mem_dedupAux (x : String) :
    ∀ (l emitted : List String), x ∈ dedupAux l emitted ↔ x ∈ l ∧ x ∉ emitted
  | [], emitted => by simp [dedupAux]
  | y :: ys, emitted => by
      by_cases hy : y ∈ emitted
      · have hc : emitted.contains y = true := by
          simpa [List.elem_eq_mem] using hy
        rw [dedupAux, if_pos hc, mem_dedupAux x ys emitted]
        constructor
        · rintro ⟨h1, h2⟩
          exact ⟨List.mem_cons_of_mem _ h1, h2⟩
        · rintro ⟨h1, h2⟩
          rcases List.mem_cons.mp h1 with rfl | h1
          · exact absurd hy h2
          · exact ⟨h1, h2⟩
      · have hc : emitted.contains y = false := by
          simpa [List.elem_eq_mem] using hy
        rw [dedupAux, if_neg (by rw [hc]; simp)]
        rw [List.mem_cons, mem_dedupAux x ys (y :: emitted)]
        constructor
        · rintro (rfl | ⟨h1, h2⟩)
          · exact ⟨List.mem_cons_self _ _, hy⟩
          · exact ⟨List.mem_cons_of_mem _ h1, fun hmem => h2 (List.mem_cons_of_mem _ hmem)⟩
        · rintro ⟨h1, h2⟩
          rcases List.mem_cons.mp h1 with rfl | h1
          · exact Or.inl rfl
          · by_cases hxy : x = y
            · exact Or.inl hxy
            · exact Or.inr ⟨h1, by simp [hxy, h2]⟩

theorem nodup_dedupAux :
    ∀ (l emitted : List String), (dedupAux l emitted).Nodup
  | [], _ => List.nodup_nil
  | y :: ys, emitted => by
      rw [dedupAux]
      split
      · exact nodup_dedupAux ys emitted
      · refine List.nodup_cons.mpr ⟨?_, nodup_dedupAux ys (y :: emitted)⟩
        intro hmem
        exact ((mem_dedupAux y ys (y :: emitted)).mp hmem).2 (List.mem_cons_self _ _)

theorem sublist_dedupAux :
    ∀ (l emitted : List String), (dedupAux l emitted).Sublist l
  | [], _ => List.Sublist.refl _
  | y :: ys, emitted => by
      rw [dedupAux]
      split
      · exact (sublist_dedupAux ys emitted).cons _
      · exact (sublist_dedupAux ys (y :: emitted)).cons₂ _

theorem mem_dedupFirst (x : String) (l : List String) :
    x ∈ dedupFirst l ↔ x ∈ l := by
  rw [dedupFirst, mem_dedupAux]
  simp

theorem nodup_dedupFirst (l : List String) : (dedupFirst l).Nodup :=
  nodup_dedupAux l []

theorem sublist_dedupFirst (l : List String) : (dedupFirst l).Sublist l :=
  sublist_dedupAux l []

theorem pushTier_append (sizes : Option SizesObj) (name : String)
    (a b : List String) :
    pushTier sizes name (a ++ b) = a ++ pushTier sizes name b := by
  cases sizes with
  | none => rfl
  | some s => cases h : tierUrl s name <;> simp [pushTier, h]

theorem pushTier_acc (sizes : Option SizesObj) (name : String)
    (acc : List String) :
    pushTier sizes name acc = acc ++ pushTier sizes name [] := by
  have := pushTier_append sizes name acc []
  simpa using this

theorem foldPush_append (sizes : Option SizesObj) :
    ∀ (names : List String) (acc : List String),
      names.foldl (fun acc name => pushTier sizes name acc) acc =
        acc ++ names.foldl (fun acc name => pushTier sizes name acc) []
  | [], acc => by simp
  | n :: ns, acc => by
      simp only [List.foldl_cons]
      rw [foldPush_append sizes ns (pushTier sizes n acc),
        foldPush_append sizes ns (pushTier sizes n []),
        pushTier_acc sizes n acc, List.append_assoc]

theorem fallbackTiers_acc (sizes : Option SizesObj) (acc : List String) :
    fallbackTiers sizes acc = acc ++ fallbackTiers sizes [] := by
  rw [fallbackTiers, fallbackTiers, foldPush_append]

theorem unsubscribeFn_cons (c x : Nat) (xs : List Nat) :
    unsubscribeFn c (x :: xs) = if x = c then xs else x :: unsubscribeFn c xs := by
  by_cases hx : x = c
  · simp [unsubscribeFn, indexOfL, hx, removeAt]
  · simp only [unsubscribeFn, indexOfL, hx, if_neg, if_false]
    cases h : indexOfL c xs <;> simp [h, removeAt]

theorem unsubscribeFn_eq_erase (c : Nat) :
    ∀ subs : List Nat, unsubscribeFn c subs = subs.erase c
  | [] => rfl
  | x :: xs => by
      rw [unsubscribeFn_cons, List.erase_cons, unsubscribeFn_eq_erase c xs]
      by_cases h : x = c
      · simp [h]
      · simp [h, Ne.symm h]

theorem reduceBest_cons (t : Int) (h c : SizeVariant) (r : List SizeVariant) :
    reduceBest t h (c :: r) = reduceBest t (closerTo t h c) r := rfl

theorem distTo_closerTo_le_left (t : Int) (b c : SizeVariant) :
    distTo t (closerTo t b c) ≤ distTo t b := by
  unfold closerTo
  split <;> omega

theorem distTo_closerTo_le_right (t : Int) (b c : SizeVariant) :
    distTo t (closerTo t b c) ≤ distTo t c := by
  unfold closerTo
  split <;> omega

theorem reduceBest_min (t : Int) :
    ∀ (l : List SizeVariant) (h : SizeVariant),
      distTo t (reduceBest t h l) ≤ distTo t h ∧
      ∀ v ∈ l, distTo t (reduceBest t h l) ≤ distTo t v
  | [], h => ⟨le_refl _, by simp⟩
  | c :: r, h => by
      rw [reduceBest_cons]
      have ih := reduceBest_min t r (closerTo t h c)
      refine ⟨le_trans ih.1 (distTo_closerTo_le_left t h c), ?_⟩
      intro v hv
      rcases List.mem_cons.mp hv with rfl | hv
      · exact le_trans ih.1 (distTo_closerTo_le_right t h v)
      · exact ih.2 v hv

theorem reduceBest_mem (t : Int) :
    ∀ (l : List SizeVariant) (h : SizeVariant),
      reduceBest t h l = h ∨ reduceBest t h l ∈ l
  | [], _ => Or.inl rfl
  | c :: r, h => by
      rw [reduceBest_cons]
      rcases reduceBest_mem t r (closerTo t h c) with he | he
      · rw [he]
        unfold closerTo
        split
        · exact Or.inr (List.mem_cons_self _ _)
        · exact Or.inl rfl
      · exact Or.inr (List.mem_cons_of_mem _ he)

theorem reduceBest_first (t : Int) :
    ∀ (l : List SizeVariant) (h : SizeVariant),
      (h :: l).find? (fun v => distTo t v == distTo t (reduceBest t h l)) =
        some (reduceBest t h l)
  | [], h => by simp [reduceBest, List.find?]
  | c :: r, h => by
      rw [reduceBest_cons]
      by_cases hc : distTo t c < distTo t h
      · have hcc : closerTo t h c = c := by
          unfold closerTo
          rw [if_pos hc]
        rw [hcc]
        have hlt : distTo t (reduceBest t c r) < distTo t h :=
          lt_of_le_of_lt (reduceBest_min t r c).1 hc
        rw [List.find?_cons_of_neg _ (by simp; omega)]
        exact reduceBest_first t r c
      · have hcc : closerTo t h c = h := by
          unfold closerTo
          rw [if_neg hc]
        rw [hcc]
        have ih := reduceBest_first t r h
        by_cases hh : distTo t h = distTo t (reduceBest t h r)
        · have hbh : reduceBest t h r = h := by
            rw [List.find?_cons_of_pos _ (by simp [hh])] at ih
            exact (Option.some.inj ih).symm
          rw [hbh] at hh ⊢
          exact List.find?_cons_of_pos _ (by simp)
        · have hble : distTo t (reduceBest t h r) ≤ distTo t h :=
            (reduceBest_min t r h).1
          rw [List.find?_cons_of_neg _ (by simp; omega)] at ih
          rw [List.find?_cons_of_neg _ (by simp; omega),
            List.find?_cons_of_neg _ (by simp; omega)]
          exact ih

theorem lookupCache_insert (k : String) (v : List WordPressPost) :
    ∀ m : List (String × List WordPressPost),
      lookupCache (insertCache m k v) k = some v
  | [] => by simp [insertCache, lookupCache, List.find?]
  | (k', v') :: rest => by
      by_cases h : k' = k
      · simp [insertCache, h, lookupCache, List.find?]
      · rw [insertCache]
        simp only [if_neg h]
        have ih := lookupCache_insert k v rest
        simp only [lookupCache, List.find?] at ih ⊢
        have : (k' == k) = false := by simpa using h
        rw [this]
        exact ih

/-- An uppercase "BREAKING" in the raw title implies the lowercased
title contains "breaking" (case-insensitivity of the keyword check). -/
theorem hasUrgencyKeyword_of_upper (a : WordPressPost)
    (hB : strIncludes a.title "BREAKING" = true) :
    hasUrgencyKeyword a = true := by
  have h1 := containsL_map Char.toLower a.title.data ("BREAKING".data) hB
  have h2 : ("BREAKING".data.map Char.toLower) = "breaking".data := by decide
  rw [h2] at h1
  have h3 : strIncludes (lowerStr a.title) "breaking" = true := h1
  simp [hasUrgencyKeyword, h3]

/-! ### Claim theorems -/

/-- C4: for every never-seen item, the classifier returns
`breaking_news` iff the (lowercased) title or body contains "breaking"
or "urgent"; otherwise it returns `new_article` iff the publish
timestamp is within the last hour, and `updated_article` otherwise.  A
title containing the uppercase "BREAKING" classifies as `breaking_news`
regardless of the publish timestamp. -/
theorem claim_C4_updateType (now : Int) (a : WordPressPost) :
    (determineUpdateType now a = .breaking_news ↔ hasUrgencyKeyword a = true) ∧
    (determineUpdateType now a = .new_article ↔
      (hasUrgencyKeyword a = false ∧ now - 60 * 60 * 1000 < a.date)) ∧
    (determineUpdateType now a = .updated_article ↔
      (hasUrgencyKeyword a = false ∧ ¬ (now - 60 * 60 * 1000 < a.date))) ∧
    (strIncludes a.title "BREAKING" = true →
      determineUpdateType now a = .breaking_news) := by
  have hBr : strIncludes a.title "BREAKING" = true →
      determineUpdateType now a = .breaking_news := fun hB => by
    simp [determineUpdateType, hasUrgencyKeyword_of_upper a hB]
  refine ⟨?_, ?_, ?_, hBr⟩ <;>
    by_cases hk : hasUrgencyKeyword a = true <;>
      by_cases hd : now - 3600000 < a.date <;>
        simp [determineUpdateType, hk, hd]

/-- Witness for C4: concrete classifications — an old post titled
"BREAKING: ..." is breaking news, a keyword-free post from two hours ago
is an updated article, and one from ten minutes ago is a new article. -/
theorem claim_C4_updateType_witness :
    determineUpdateType 10000000 ⟨1, 0, "BREAKING: Fire downtown", "body"⟩ = .breaking_news ∧
    determineUpdateType 10000000 ⟨2, 10000000 - 7200000, "Road closure", "City news"⟩ = .updated_article ∧
    determineUpdateType 10000000 ⟨3, 10000000 - 600000, "Road closure", "City news"⟩ = .new_article := by
  refine ⟨(claim_C4_updateType 10000000 _).2.2.2 (by decide),
    (claim_C4_updateType 10000000 _).2.2.1.mpr (by decide),
    (claim_C4_updateType 10000000 _).2.1.mpr (by decide)⟩

/-- C3: after every detection step (any batch of fetched articles, so
both the poll path and the manual `checkForUpdates` path, which call the
same `detectNewArticles` on the shared seen set) the seen set has at
most 100 entries; and the single insertion that brings a 100-entry set
past 100 prunes it to exactly the 50 most-recently-inserted
identifiers, discarding the oldest by insertion order. -/
theorem claim_C3_seenSetBound :
    (∀ (articles : List WordPressPost) (seen : List Nat),
        ((detectNewArticles articles seen).2).length ≤ 100) ∧
    (∀ (a : WordPressPost) (seen : List Nat),
        seen.length = 100 → seen.contains a.id = false →
        (detectNewArticles [a] seen).1 = [a] ∧
        (detectNewArticles [a] seen).2 = (seen ++ [a.id]).drop 51 ∧
        ((detectNewArticles [a] seen).2).length = 50) := by
  constructor
  · intro articles seen
    simp only [detectNewArticles]
    split
    · rw [List.length_drop]
      omega
    · omega
  · intro a seen h1 h2
    have hL : (seen ++ [a.id]).length = 101 := by simp [h1]
    have key : detectNewArticles [a] seen = ([a], (seen ++ [a.id]).drop 51) := by
      simp only [detectNewArticles, List.foldl_cons, List.foldl_nil, h2,
        Bool.false_eq_true, if_false]
      rw [if_pos (by omega)]
      rw [hL]
      norm_num
    refine ⟨by rw [key], by rw [key], ?_⟩
    rw [key]
    simp only [List.length_drop, hL]

/-- Witness for C3: a seen set of the 100 identifiers `0..99` receiving
the fresh identifier `1000` is pruned to the last 50. -/
theorem claim_C3_seenSetBound_witness :
    (detectNewArticles [⟨1000, 0, "", ""⟩] (List.range 100)).1 = [⟨1000, 0, "", ""⟩] ∧
    (detectNewArticles [⟨1000, 0, "", ""⟩] (List.range 100)).2 =
      ((List.range 100) ++ [1000]).drop 51 ∧
    ((detectNewArticles [⟨1000, 0, "", ""⟩] (List.range 100)).2).length = 50 :=
  claim_C3_seenSetBound.2 ⟨1000, 0, "", ""⟩ (List.range 100) (by decide) (by decide)

/-- C2 counterexample: `stopPolling` leaves the pending scheduled poll
in place (no `clearTimeout` is ever issued), and `stopPolling`
immediately followed by `startPolling` while a poll is pending yields
two concurrent poll-cycle chains (two pending timers), which persist
across subsequent timer firings. -/
theorem claim_C2_counterexample :
    (rtRun rtInit [.start, .stop, .start]).pending = 2 ∧
    (rtRun rtInit [.start, .stop, .start, .timerFire]).pending = 2 ∧
    (rtStep ⟨true, 1⟩ .stop).pending = 1 := by
  decide

/-- C2 amended: `startPolling` while already polling is a no-op;
`stopPolling` clears the flag but cancels nothing; a pending poll firing
while stopped is a no-op that consumes its timer without rescheduling;
and stop-then-start with one poll pending leaves two concurrent
chains. -/
theorem claim_C2_amended :
    (∀ s : RTState, s.isPolling = true → rtStep s .start = s) ∧
    (∀ s : RTState, rtStep s .stop = ⟨false, s.pending⟩) ∧
    (∀ s : RTState, s.isPolling = false → rtStep s .timerFire = ⟨false, s.pending - 1⟩) ∧
    (∀ s : RTState, s.isPolling = true → s.pending = 1 →
        (rtRun s [.stop, .start]).pending = 2) := by
  refine ⟨?_, ?_, ?_, ?_⟩
  · intro s hs
    simp [rtStep, hs]
  · intro s
    rfl
  · intro s hs
    obtain ⟨ip, pd⟩ := s
    subst hs
    rcases pd with _ | pd <;> simp [rtStep, pollForUpdates]
  · intro s hs hp
    obtain ⟨ip, pd⟩ := s
    subst hs
    subst hp
    decide

/-- Witness for C2 amended, at concrete states. -/
theorem claim_C2_amended_witness :
    rtStep ⟨true, 5⟩ .start = ⟨true, 5⟩ ∧
    rtStep ⟨true, 3⟩ .stop = ⟨false, 3⟩ ∧
    rtStep ⟨false, 3⟩ .timerFire = ⟨false, 2⟩ ∧
    (rtRun ⟨true, 1⟩ [.stop, .start]).pending = 2 :=
  ⟨claim_C2_amended.1 _ rfl, claim_C2_amended.2.1 _,
    claim_C2_amended.2.2.1 _ rfl, claim_C2_amended.2.2.2 _ rfl rfl⟩

/-- C10 counterexample: with the same callback subscribed twice, the
first handle's unsubscribe removes one registration, and calling it a
second time removes the *other* registration — so unsubscribing is not
idempotent and can remove another subscription of the same callback. -/
theorem claim_C10_counterexample :
    unsubscribeFn 0 (subscribeFn 0 (subscribeFn 0 [])) = [0] ∧
    unsubscribeFn 0 (unsubscribeFn 0 (subscribeFn 0 (subscribeFn 0 []))) = [] := by
  decide

/-- C10 amended: unsubscribing removes exactly one (the first)
registration of its own callback and never touches other callbacks'
registrations; it is idempotent provided the callback is registered at
most once. -/
theorem claim_C10_amended (c : Nat) (subs : List Nat) :
    (∀ d, d ≠ c → (unsubscribeFn c subs).count d = subs.count d) ∧
    ((unsubscribeFn c subs).count c = subs.count c - 1) ∧
    (subs.count c ≤ 1 → unsubscribeFn c (unsubscribeFn c subs) = unsubscribeFn c subs) := by
  refine ⟨?_, ?_, ?_⟩
  · intro d hd
    rw [unsubscribeFn_eq_erase]
    exact List.count_erase_of_ne hd subs
  · rw [unsubscribeFn_eq_erase]
    exact List.count_erase_self c subs
  · intro hle
    rw [unsubscribeFn_eq_erase, unsubscribeFn_eq_erase]
    have h0 : (subs.erase c).count c = 0 := by
      rw [List.count_erase_self]
      omega
    exact List.erase_of_not_mem (List.count_eq_zero.mp h0)

/-- Witness for C10 amended at a two-subscriber state. -/
theorem claim_C10_amended_witness :
    (unsubscribeFn 0 [0, 1]).count 1 = ([0, 1] : List Nat).count 1 ∧
    (unsubscribeFn 0 [0, 1]).count 0 = ([0, 1] : List Nat).count 0 - 1 ∧
    unsubscribeFn 0 (unsubscribeFn 0 [0, 1]) = unsubscribeFn 0 [0, 1] :=
  ⟨(claim_C10_amended 0 [0, 1]).1 1 (by decide), (claim_C10_amended 0 [0, 1]).2.1,
    (claim_C10_amended 0 [0, 1]).2.2 (by decide)⟩

/-- C7 counterexample: two structurally different filters share the
same cache key, because fields are joined with `-` which may itself
occur inside a field. -/
theorem claim_C7_counterexample :
    cacheKey ⟨"a-b", "c", "", "", "", 10⟩ = cacheKey ⟨"a", "b-c", "", "", "", 10⟩ ∧
    (⟨"a-b", "c", "", "", "", 10⟩ : ArchiveOptions) ≠ ⟨"a", "b-c", "", "", "", 10⟩ := by
  constructor
  · decide
  · decide

/-- C7 amended: structurally equal filters always map to the same cache
key, but the key function is not injective — distinct filters whose
fields contain the `-` separator can collide (and therefore share a
cache entry). -/
theorem claim_C7_amended :
    (∀ o o' : ArchiveOptions, o = o' → cacheKey o = cacheKey o') ∧
    (∃ o o' : ArchiveOptions, o ≠ o' ∧ cacheKey o = cacheKey o') :=
  ⟨fun _ _ h => by rw [h],
    ⟨⟨"a-b", "c", "", "", "", 10⟩, ⟨"a", "b-c", "", "", "", 10⟩, by decide, by decide⟩⟩

/-- Witness for C7 amended. -/
theorem claim_C7_amended_witness :
    cacheKey ⟨"x", "y", "", "", "", 10⟩ = cacheKey ⟨"x", "y", "", "", "", 10⟩ :=
  claim_C7_amended.1 _ _ rfl

/-- C8: on a fetch failure (non-OK status, network or decode error —
all collapse into `FetchOutcome.failure`, caught before `totalStories`
is assigned or the cache written), `getStories` returns the empty result
`⟨[], 0, false⟩`, leaves the service state completely unchanged, and
still reports the adapter as invoked; a subsequent call with a
structurally equal filter invokes the adapter again (errors are never
cached). -/
theorem claim_C8_errorPath (o : ArchiveOptions) (s : ArchiveState)
    (h : lookupCache s.cachedStories (cacheKey o) = none) :
    getStories .failure o s = (⟨[], 0, false⟩, s, true) ∧
    ∀ fetch2 : FetchOutcome,
      (getStories fetch2 o ((getStories .failure o s).2.1)).2.2 = true := by
  have h1 : getStories .failure o s = (⟨[], 0, false⟩, s, true) := by
    simp [getStories, h]
  refine ⟨h1, fun fetch2 => ?_⟩
  rw [h1]
  cases fetch2 <;> simp [getStories, h]

/-- Witness for C8 at a concrete empty-cache state with a nonzero
running total. -/
theorem claim_C8_errorPath_witness :
    getStories .failure ⟨"a", "", "", "", "", 10⟩ ⟨[], 7⟩ =
      (⟨[], 0, false⟩, ⟨[], 7⟩, true) :=
  (claim_C8_errorPath ⟨"a", "", "", "", "", 10⟩ ⟨[], 7⟩ rfl).1

/-- C6: evaluation of the category-resolution code on the offending
input.  The slug "7-questions" (a real category of this application,
whose actual id is 33629 per the featured-category table) is sent by
the code as the category id `7` — `parseInt` accepts the leading digit —
and the secondary slug lookup is never consulted, even though
"7-questions" is not an integer string (it contains non-digit
characters).  The intended branches work for slugs without a leading
digit: a resolvable slug uses the looked-up id, and a failed resolution
degrades to no category constraint, as does the empty slug. -/
theorem claim_C6_bug_eval :
    categoriesConstraint (fun _ => some 33629) "7-questions" = some [7] ∧
    categoriesConstraint (fun _ => some 33629) "7-questions" ≠ some [33629] ∧
    ("7-questions").data.all (fun c => c.isDigit) = false ∧
    categoriesConstraint (fun _ => some 5) "ask-the-doctor" = some [5] ∧
    categoriesConstraint (fun _ => none) "ask-the-doctor" = none ∧
    categoriesConstraint (fun _ => none) "" = none := by
  refine ⟨by decide, by decide, by decide, by decide, by decide, by decide⟩

/-- C1 counterexample: the first fetch for filter "a" stores two items
and observes total 5 (`hasMore = true`); a later fetch for filter "b"
overwrites the shared running total with 1; the second call for "a" is
a cache hit (adapter not invoked, stored items returned) but reports
total 1 and `hasMore = false` — not the total 5 and `hasMore = true`
observed when the entry was populated. -/
theorem claim_C1_counterexample :
    let oA : ArchiveOptions := ⟨"a", "", "", "", "", 10⟩
    let oB : ArchiveOptions := ⟨"b", "", "", "", "", 10⟩
    let r1 := getStories (.success [⟨1, 0, "t1", "c1"⟩, ⟨2, 0, "t2", "c2"⟩] (some 5)) oA ⟨[], 0⟩
    let r2 := getStories (.success [⟨3, 0, "t3", "c3"⟩] (some 1)) oB r1.2.1
    let r3 := getStories (.success [] none) oA r2.2.1
    r1.1.total = 5 ∧ r1.1.hasMore = true ∧
    r3.2.2 = false ∧ r3.1.stories = r1.1.stories ∧
    r3.1.total = 1 ∧ r3.1.hasMore = false := by
  decide

/-- C1 amended: a `getStories` call whose filter key is cached returns
without invoking the adapter, yielding the stored items — but with the
service's *current* running total and `hasMore` recomputed at hit time
from it (not the values observed at population time); and after a
successful populating call, a repeat call with a structurally equal
filter returns the stored items without invoking the adapter. -/
theorem claim_C1_amended :
    (∀ (fetch : FetchOutcome) (o : ArchiveOptions) (s : ArchiveState)
        (cached : List WordPressPost),
        lookupCache s.cachedStories (cacheKey o) = some cached →
        getStories fetch o s =
          (⟨cached, s.totalStories, decide (cached.length < s.totalStories)⟩, s, false)) ∧
    (∀ (o : ArchiveOptions) (s : ArchiveState) (stories : List WordPressPost)
        (hdr : Option Nat) (fetch2 : FetchOutcome),
        lookupCache s.cachedStories (cacheKey o) = none →
        (getStories fetch2 o ((getStories (.success stories hdr) o s).2.1)).1.stories = stories ∧
        (getStories fetch2 o ((getStories (.success stories hdr) o s).2.1)).2.2 = false) := by
  constructor
  · intro fetch o s cached h
    simp [getStories, h]
  · intro o s stories hdr fetch2 h
    have hs' : (getStories (.success stories hdr) o s).2.1 =
        ⟨insertCache s.cachedStories (cacheKey o) stories,
          match hdr with | some n => n | none => stories.length⟩ := by
      simp [getStories, h]
    rw [hs']
    have hl := lookupCache_insert (cacheKey o) stories s.cachedStories
    cases fetch2 <;> simp [getStories, hl]

/-- C9 counterexample: an image whose `source_url` is the empty string
(falsy) and which has no sized variants resolves to the empty candidate
list — the original source URL is neither its last element nor
contained in it (line 113 guards the push with truthiness). -/
theorem claim_C9_counterexample :
    getAllUrls ⟨"", none⟩ = [] ∧
    (⟨"", none⟩ : WPImage).source_url ∉ getAllUrls ⟨"", none⟩ := by
  refine ⟨by decide, by decide⟩

/-- C9 amended: the resolved candidate list never contains duplicate
URLs and deduplication preserves first-seen order (the result is an
order-preserving sublist of the pushed URLs); a non-empty original
source URL is always included; and when no sized tier variant is
available the list is exactly `[source_url]` — including and ending
with the original — provided `source_url` is non-empty. -/
theorem claim_C9_amended (image : WPImage) :
    (getAllUrls image).Nodup ∧
    (getAllUrls image).Sublist
      (fallbackTiers image.media_details [] ++
        (if image.source_url ≠ "" then [image.source_url] else [])) ∧
    (image.source_url ≠ "" → image.source_url ∈ getAllUrls image) ∧
    (fallbackTiers image.media_details [] = [] → image.source_url ≠ "" →
      getAllUrls image = [image.source_url]) := by
  refine ⟨nodup_dedupFirst _, ?_, ?_, ?_⟩
  · by_cases hsrc : image.source_url = "" <;>
      simp only [getAllUrls, hsrc, if_pos, if_neg, ne_eq, not_true_eq_false,
        not_false_eq_true, if_true, if_false, ite_true, ite_false,
        List.append_nil] <;>
      exact sublist_dedupFirst _
  · intro hsrc
    simp only [getAllUrls, hsrc, ne_eq, not_false_eq_true, if_true, ite_true]
    rw [mem_dedupFirst]
    exact List.mem_append_right _ (List.mem_singleton.mpr rfl)
  · intro hF hsrc
    simp only [getAllUrls, hF, hsrc, ne_eq, not_false_eq_true, if_true,
      ite_true, List.nil_append]
    rfl

/-- Witness for C9 amended: an image with no sized variants and a
non-empty original URL resolves to exactly that URL. -/
theorem claim_C9_amended_witness :
    getAllUrls ⟨"orig", none⟩ = ["orig"] :=
  (claim_C9_amended ⟨"orig", none⟩).2.2.2 rfl (by decide)

/-- C5: with `targetWidth = 400` and tiers thumbnail:150, medium:400,
large:1200, the (native-platform) candidate list starts with the medium
URL — an exact match.  In general, on the native path, when a non-zero
`targetWidth` is given and sized variants are available, the reduce over
the available tiers selects the variant whose width is closest to the
target (ties broken by smallest absolute difference, then by
first-encountered iteration order — it is the first element attaining
the minimum distance), and that variant's URL is placed first in the
candidate list iff its width does not exceed `1.5 × targetWidth`
(otherwise the list is the same as with no target width).  On the web
path the platform-preference prelude of lines 54-59 precedes it. -/
theorem claim_C5_widthSelection :
    ((getImageUrlOptions false (some 400)
        ⟨"orig", some [("thumbnail", ⟨"u_thumb", 150⟩), ("medium", ⟨"u_med", 400⟩),
          ("large", ⟨"u_large", 1200⟩)]⟩).map dedupFirst =
      .ok ["u_med", "u_thumb", "u_large", "orig"]) ∧
    (∀ (t : Int) (img : WPImage) (s : SizesObj) (h : SizeVariant)
        (tl : List SizeVariant),
      img.media_details = some s → t ≠ 0 → availableSizes s = h :: tl →
      (reduceBest t h tl ∈ h :: tl) ∧
      (∀ v ∈ h :: tl, distTo t (reduceBest t h tl) ≤ distTo t v) ∧
      ((h :: tl).find? (fun v => distTo t v == distTo t (reduceBest t h tl)) =
        some (reduceBest t h tl)) ∧
      (2 * (reduceBest t h tl).width ≤ 3 * t →
        getImageUrlOptions false (some t) img =
          .ok ((reduceBest t h tl).source_url ::
            (fallbackTiers (some s) [] ++ [img.source_url]))) ∧
      (¬ 2 * (reduceBest t h tl).width ≤ 3 * t →
        getImageUrlOptions false (some t) img =
          getImageUrlOptions false none img)) := by
  constructor
  · rfl
  · intro t img s h tl himg ht havail
    refine ⟨?_, ?_, reduceBest_first t tl h, ?_, ?_⟩
    · rcases reduceBest_mem t tl h with he | he
      · rw [he]
        exact List.mem_cons_self _ _
      · exact List.mem_cons_of_mem _ he
    · intro v hv
      rcases List.mem_cons.mp hv with rfl | hv
      · exact (reduceBest_min t tl _).1
      · exact (reduceBest_min t tl h).2 v hv
    · intro hadm
      simp only [getImageUrlOptions, himg, ht, ne_eq, not_false_eq_true,
        if_true, ite_true, havail, hadm, Bool.false_eq_true, if_false,
        ite_false, List.nil_append]
      rw [fallbackTiers_acc]
      simp
    · intro hadm
      simp only [getImageUrlOptions, himg, ht, ne_eq, not_false_eq_true,
        if_true, ite_true, havail, hadm, Bool.false_eq_true, if_false,
        ite_false, List.nil_append]

/-- Witness for C5: the general selection theorem applied to the
400-target example — the exact-match medium tier is placed first. -/
theorem claim_C5_widthSelection_witness :
    getImageUrlOptions false (some 400)
        ⟨"orig", some [("thumbnail", ⟨"u_thumb", 150⟩), ("medium", ⟨"u_med", 400⟩),
          ("large", ⟨"u_large", 1200⟩)]⟩ =
      .ok ("u_med" ::
        (fallbackTiers (some [("thumbnail", ⟨"u_thumb", 150⟩), ("medium", ⟨"u_med", 400⟩),
          ("large", ⟨"u_large", 1200⟩)]) [] ++ ["orig"])) := by
  have hgen := (claim_C5_widthSelection.2 400
    ⟨"orig", some [("thumbnail", ⟨"u_thumb", 150⟩), ("medium", ⟨"u_med", 400⟩),
      ("large", ⟨"u_large", 1200⟩)]⟩
    [("thumbnail", ⟨"u_thumb", 150⟩), ("medium", ⟨"u_med", 400⟩),
      ("large", ⟨"u_large", 1200⟩)]
    ⟨"u_thumb", 150⟩ [⟨"u_med", 400⟩, ⟨"u_large", 1200⟩]
    rfl (by decide) (by decide)).2.2.2.1 (by decide)
  exact hgen.trans (by rfl)

/-- Witness for C1 amended: a hit on a one-entry cache returns the
stored items with the current running total, without fetching. -/
theorem claim_C1_amended_witness :
    getStories .failure ⟨"a", "", "", "", "", 10⟩
        ⟨[("a-----10", [⟨1, 0, "t1", "c1"⟩])], 9⟩ =
      (⟨[⟨1, 0, "t1", "c1"⟩], 9, true⟩,
        ⟨[("a-----10", [⟨1, 0, "t1", "c1"⟩])], 9⟩, false) :=
  claim_C1_amended.1 .failure ⟨"a", "", "", "", "", 10⟩
    ⟨[("a-----10", [⟨1, 0, "t1", "c1"⟩])], 9⟩ [⟨1, 0, "t1", "c1"⟩] (by decide)

end NewsApp
